import Mathlib

/-!
Shallow embedding of the job polling / lifecycle-tracking logic of the
crypto-analysis dashboard: the `BacktestJobStatus` component state
(`loadJobs`, the interval-refresh effect, the polling effect) and the API
client's `pollJobStatus` retry loop, together with theorems about the merge
policy, tracked-set membership and failure behaviour.

The component is single-threaded and event-driven; every state change goes
through one of the transitions modelled below, so each operation is embedded
as a function on the component state.  A poll sequence for one job is
embedded as a function of the list of responses its successive fetches
return, in issuance order.
-/

/-- Job lifecycle status: `'pending' | 'running' | 'completed' | 'failed'`. -/
inductive JobStatus
  | pending
  | running
  | completed
  | failed
deriving DecidableEq, Repr

/-- One backtest job record as consumed by the frontend (interface
`BacktestJob` in the API client).  Numeric payload fields are opaque
pass-through for the tracker and are modelled as `Int`; `strategy_params`
is an opaque record modelled as an association list. -/
structure BacktestJob where
  id : Nat
  created_at : String
  updated_at : Option String
  status : JobStatus
  error_message : Option String
  strategy_name : String
  strategy_params : List (String × String)
  symbol : String
  interval : String
  start_date : Option String
  end_date : Option String
  initial_capital : Int
  take_profit_pct : Option Int
  stop_loss_pct : Option Int
  backtest_run_id : Option Nat
deriving DecidableEq, Repr

/-- `job.status === 'pending' || job.status === 'running'`. -/
def isActive (j : BacktestJob) : Bool :=
  j.status == JobStatus.pending || j.status == JobStatus.running

/-- `job.status === 'completed' || job.status === 'failed'`. -/
def isTerminal (j : BacktestJob) : Bool :=
  j.status == JobStatus.completed || j.status == JobStatus.failed

/-- Error kinds of the HTTP collaborators (§7 of the design). -/
inductive FetchError
  | networkFailure
  | decodeFailure
  | notFound
deriving DecidableEq, Repr

/-- The `BacktestJobStatus` component state: the `jobs`, `loading`, `error`
and `pollingJobs` `useState` cells. -/
structure TrackerState where
  jobs : List BacktestJob
  loading : Bool
  error : Option String
  polling : Finset Nat
deriving DecidableEq

/-- Initial component state: `[]`, `true`, `null`, `new Set()`. -/
def initialState : TrackerState :=
  { jobs := [], loading := true, error := none, polling := ∅ }

/-- The error string set by `loadJobs` on failure. -/
def failedLoadMessage : String := "Failed to load backtest jobs"

/-- `loadJobs`: fetch the collection, filter by `showCompleted` and store the
result; on failure set the error message and leave `jobs` untouched.
`fetched` is the outcome of the awaited `fetchBacktestJobs()` call. -/
def loadJobs (showCompleted : Bool) (fetched : Except FetchError (List BacktestJob))
    (s : TrackerState) : TrackerState :=
  match fetched with
  | Except.ok allJobs =>
      { s with
        jobs := if showCompleted then allJobs else allJobs.filter isActive,
        error := none,
        loading := false }
  | Except.error _ =>
      { s with error := some failedLoadMessage, loading := false }

/-- The merge applied when a poll resolution arrives:
`setJobs(prev => prev.map(j => j.id === updatedJob.id ? updatedJob : j))`. -/
def mergeJob (prev : List BacktestJob) (updatedJob : BacktestJob) : List BacktestJob :=
  prev.map fun j => if j.id = updatedJob.id then updatedJob else j

/-- The `.catch` handler attached to `pollJobStatus(job.id)` in the polling
effect: it only logs `err` to the console and touches no state cell. -/
def pollRejectionHandler (s : TrackerState) : TrackerState := s

/-- Default value of the `interval` parameter of `pollJobStatus`. -/
def defaultPollIntervalMs : Nat := 2000

/-- `pollJobStatus`: repeatedly fetch the job; resolve on the first terminal
record, reject on the first fetch error, otherwise schedule the next fetch.
`responses` are the outcomes of the successive `fetchBacktestJob(jobId)`
calls in issuance order; `none` means the loop is still awaiting further
responses. -/
def pollJobStatus :
    List (Except FetchError BacktestJob) → Option (Except FetchError BacktestJob)
  | [] => none
  | Except.error e :: _ => some (Except.error e)
  | Except.ok job :: rest =>
      if isTerminal job then some (Except.ok job) else pollJobStatus rest

/-- Number of fetches `pollJobStatus` issues while consuming `responses`
(it stops fetching once it has resolved or rejected). -/
def pollFetchCount : List (Except FetchError BacktestJob) → Nat
  | [] => 0
  | Except.error _ :: _ => 1
  | Except.ok job :: rest =>
      if isTerminal job then 1 else 1 + pollFetchCount rest

/-- Ids of the pending/running jobs of a list, as a set: the ids the polling
effect's first pass adds to `newPollingSet`. -/
def activeIds (jobs : List BacktestJob) : Finset Nat :=
  ((jobs.filter isActive).map BacktestJob.id).toFinset

/-- The second pass's removal test for one tracked id: the job with that id
is absent from the list, or is no longer pending/running. -/
def isStale (jobs : List BacktestJob) (jobId : Nat) : Bool :=
  match jobs.find? (fun j => j.id = jobId) with
  | none => true
  | some j => !(isActive j)

/-- Tracked ids the polling effect's second pass deletes from
`newPollingSet` (it iterates over the previous `pollingJobs`). -/
def staleIds (s : TrackerState) : Finset Nat :=
  s.polling.filter fun jobId => isStale s.jobs jobId

/-- The polling effect's net update of `pollingJobs`: start from the old
set, add every pending/running job's id, then delete every previously
tracked id whose job is gone or terminal. -/
def ensurePollingEffect (s : TrackerState) : TrackerState :=
  { s with polling := (s.polling ∪ activeIds s.jobs) \ staleIds s }

/-- Ids for which the polling effect starts a new `pollJobStatus` loop in
one invocation: each pending/running job whose id is not yet in the old
`pollingJobs` set, in list order. -/
def pollStartsOf (s : TrackerState) : List Nat :=
  (s.jobs.filter isActive).filterMap fun j =>
    if j.id ∈ s.polling then none else some j.id

/-- One tick of the interval-refresh effect: if the displayed list holds a
pending/running job, run `loadJobs` (one collection fetch) and let the
polling effect re-run on the new list; otherwise do nothing.  The second
component counts the collection fetches issued by the tick. -/
def intervalTick (showCompleted : Bool) (fetched : Except FetchError (List BacktestJob))
    (s : TrackerState) : TrackerState × Nat :=
  if 0 < (s.jobs.filter isActive).length then
    (ensurePollingEffect (loadJobs showCompleted fetched s), 1)
  else
    (s, 0)

/-- Concrete record builder for instances: the fields the tracker inspects
are parameters, the opaque payload is fixed. -/
def mkJob (i : Nat) (st : JobStatus) (upd : Option String) (err : Option String)
    (runId : Option Nat) : BacktestJob :=
  { id := i
    created_at := "2024-01-01T00:00:00Z"
    updated_at := upd
    status := st
    error_message := err
    strategy_name := "sma_crossover"
    strategy_params := []
    symbol := "BTCUSDT"
    interval := "1h"
    start_date := none
    end_date := none
    initial_capital := 10000
    take_profit_pct := none
    stop_loss_pct := none
    backtest_run_id := runId }

/-! ### Helper lemmas on the polling-effect bookkeeping -/

theorem mem_activeIds {jobs : List BacktestJob} {x : Nat} :
    x ∈ activeIds jobs ↔ ∃ j, j ∈ jobs ∧ isActive j = true ∧ j.id = x := by
  simp only [activeIds, List.mem_toFinset, List.mem_map, List.mem_filter]
  constructor
  · rintro ⟨j, ⟨hj, ha⟩, hid⟩
    exact ⟨j, hj, ha, hid⟩
  · rintro ⟨j, hj, ha, hid⟩
    exact ⟨j, ⟨hj, ha⟩, hid⟩

theorem isStale_eq_false_iff {jobs : List BacktestJob} {x : Nat}
    (hnd : (jobs.map BacktestJob.id).Nodup) :
    isStale jobs x = false ↔ ∃ j, j ∈ jobs ∧ isActive j = true ∧ j.id = x := by
  cases hfind : jobs.find? (fun j => j.id = x) with
  | none =>
    simp only [isStale, hfind]
    constructor
    · intro h
      exact absurd h (by simp)
    · rintro ⟨j, hj, _, hid⟩
      have hni := List.find?_eq_none.mp hfind j hj
      simp [hid] at hni
  | some j =>
    have hmem : j ∈ jobs := List.mem_of_find?_eq_some hfind
    have hid : j.id = x := by simpa using List.find?_some hfind
    simp only [isStale, hfind, Bool.not_eq_false']
    constructor
    · intro h
      exact ⟨j, hmem, h, hid⟩
    · rintro ⟨j', hj', ha', hid'⟩
      have hj'j : j' = j :=
        List.inj_on_of_nodup_map hnd hj' hmem (by rw [hid', hid])
      rw [← hj'j]
      exact ha'

theorem ensurePollingEffect_jobs (s : TrackerState) :
    (ensurePollingEffect s).jobs = s.jobs := rfl

theorem ensurePollingEffect_polling (s : TrackerState)
    (hnd : (s.jobs.map BacktestJob.id).Nodup) :
    (ensurePollingEffect s).polling = activeIds s.jobs := by
  ext x
  simp only [ensurePollingEffect, Finset.mem_sdiff, Finset.mem_union, staleIds,
    Finset.mem_filter]
  constructor
  · rintro ⟨hp | ha, hns⟩
    · have hst : isStale s.jobs x = false := by
        cases hc : isStale s.jobs x with
        | false => rfl
        | true => exact absurd ⟨hp, hc⟩ hns
      exact mem_activeIds.mpr ((isStale_eq_false_iff hnd).mp hst)
    · exact ha
  · intro ha
    have hst : isStale s.jobs x = false :=
      (isStale_eq_false_iff hnd).mpr (mem_activeIds.mp ha)
    refine ⟨Or.inr ha, fun hc => ?_⟩
    rw [hst] at hc
    exact absurd hc.2 (by simp)

/-! ### Merge and refresh claims -/

/-- Claim C1 counterexample: the poll-resolution merge ignores `updated_at`.
Applying the record with the earlier `updated_at` after the record with the
later `updated_at` for the same id overwrites the fresher record's data. -/
theorem merge_recency_cex :
    mergeJob [mkJob 2 JobStatus.failed (some "2024-01-02T00:00:00Z") (some "boom") none]
        (mkJob 2 JobStatus.pending (some "2024-01-01T00:00:00Z") none none) =
      [mkJob 2 JobStatus.pending (some "2024-01-01T00:00:00Z") none none] ∧
    mkJob 2 JobStatus.pending (some "2024-01-01T00:00:00Z") none none ≠
      mkJob 2 JobStatus.failed (some "2024-01-02T00:00:00Z") (some "boom") none := by
  exact ⟨rfl, by decide⟩

/-- Claim C1 (amended): the merge is last-write-wins by arrival order, not
by `updated_at` recency: for two updates with the id of a displayed record,
the record ends up holding the later-arriving update whatever the
timestamps say, and a successful full refresh replaces the displayed list
wholesale with the fetched snapshot (in the full view), so a stale snapshot
does overwrite a previously merged fresher poll result. -/
theorem merge_arrival_order_lww (j u1 u2 : BacktestJob) (s : TrackerState)
    (snapshot : List BacktestJob) (h1 : u1.id = j.id) (h2 : u2.id = j.id) :
    mergeJob (mergeJob [j] u1) u2 = [u2] ∧
    (loadJobs true (Except.ok snapshot) s).jobs = snapshot := by
  constructor
  · simp [mergeJob, h1, h2, h1.trans h2.symm]
  · rfl

/-- Witness for `merge_arrival_order_lww` at concrete records. -/
theorem merge_arrival_order_lww_witness :
    (mkJob 5 JobStatus.running none none none).id = (mkJob 5 JobStatus.pending none none none).id ∧
    (mkJob 5 JobStatus.completed none none (some 9)).id = (mkJob 5 JobStatus.pending none none none).id ∧
    (mergeJob (mergeJob [mkJob 5 JobStatus.pending none none none]
          (mkJob 5 JobStatus.running none none none))
        (mkJob 5 JobStatus.completed none none (some 9)) =
      [mkJob 5 JobStatus.completed none none (some 9)] ∧
    (loadJobs true (Except.ok []) initialState).jobs = []) :=
  ⟨rfl, rfl,
    merge_arrival_order_lww (mkJob 5 JobStatus.pending none none none)
      (mkJob 5 JobStatus.running none none none)
      (mkJob 5 JobStatus.completed none none (some 9)) initialState [] rfl rfl⟩

/-- Claim C4: a failed `loadJobs` leaves the displayed list exactly as it
was before the call (no partial overwrite) and surfaces the failure as the
recoverable error message, which any later successful load clears again. -/
theorem refresh_failure_preserves_list (showCompleted : Bool) (e : FetchError)
    (s : TrackerState) :
    (loadJobs showCompleted (Except.error e) s).jobs = s.jobs ∧
    (loadJobs showCompleted (Except.error e) s).error = some failedLoadMessage ∧
    ∀ fetched : List BacktestJob,
      (loadJobs showCompleted (Except.ok fetched) s).error = none :=
  ⟨rfl, rfl, fun _ => rfl⟩

/-- Claim C9: the poll-resolution merge replaces only the record whose id
matches, in place: the length is preserved and the record at every position
is unchanged unless its id equals the resolved record's id, so no record is
ever replaced by position and the order never changes. -/
theorem merge_replaces_in_place (prev : List BacktestJob) (u : BacktestJob) :
    (mergeJob prev u).length = prev.length ∧
    ∀ i : Fin prev.length,
      (mergeJob prev u).get ⟨i.1, by simp [mergeJob]⟩ =
        if (prev.get i).id = u.id then u else prev.get i := by
  constructor
  · simp [mergeJob]
  · intro i
    simp [mergeJob, List.get_eq_getElem, List.getElem_map]

/-- Claim C10: when no displayed record carries the resolved record's id,
the merge leaves the displayed list completely unchanged — the resolved
record is silently discarded, never appended. -/
theorem merge_unknown_id_noop (prev : List BacktestJob) (u : BacktestJob)
    (h : ∀ j ∈ prev, j.id ≠ u.id) : mergeJob prev u = prev := by
  have hmap : prev.map (fun j => if j.id = u.id then u else j) = prev.map id := by
    refine List.map_congr_left fun j hj => ?_
    simp [h j hj]
  simpa [mergeJob] using hmap

/-- Witness for `merge_unknown_id_noop`: a resolved terminal record for an
id absent from the list is discarded. -/
theorem merge_unknown_id_noop_witness :
    (∀ j ∈ [mkJob 1 JobStatus.running none none none],
        j.id ≠ (mkJob 2 JobStatus.failed none (some "x") none).id) ∧
    mergeJob [mkJob 1 JobStatus.running none none none]
        (mkJob 2 JobStatus.failed none (some "x") none) =
      [mkJob 1 JobStatus.running none none none] :=
  ⟨by decide,
    merge_unknown_id_noop [mkJob 1 JobStatus.running none none none]
      (mkJob 2 JobStatus.failed none (some "x") none) (by decide)⟩

/-! ### Poll-loop claims -/

/-- Claim C2 counterexample: after a single network failure the poll loop
does not continue — it rejects at once, issues no further fetch, and never
reaches the terminal record that the very next response would have
delivered. -/
theorem poll_failure_stops_loop_cex :
    pollJobStatus [Except.error FetchError.networkFailure,
        Except.ok (mkJob 1 JobStatus.completed none none (some 7))] =
      some (Except.error FetchError.networkFailure) ∧
    pollFetchCount [Except.error FetchError.networkFailure,
        Except.ok (mkJob 1 JobStatus.completed none none (some 7))] = 1 :=
  ⟨rfl, rfl⟩

/-- Claim C2 (amended): a network failure in a job's poll sequence rejects
that job's `pollJobStatus` promise immediately — the loop for that job ends
after that one fetch, with no silent retry — and the component's `.catch`
handler only logs it, leaving every state cell (displayed list, error,
tracked set) unchanged, so the failure neither halts global refreshing nor
stops the independent poll sequences of other jobs. -/
theorem poll_failure_rejects (e : FetchError)
    (rest : List (Except FetchError BacktestJob)) (s : TrackerState) :
    pollJobStatus (Except.error e :: rest) = some (Except.error e) ∧
    pollFetchCount (Except.error e :: rest) = 1 ∧
    pollRejectionHandler s = s :=
  ⟨rfl, rfl, rfl⟩

/-- Claim C7: `pollJobStatus` consumes its responses in issuance order with
the default 2000ms delay between fetches; it passes over every non-terminal
record and resolves exactly at the first terminal record, so every record
it resolves with is terminal and it never resolves with a pending or
running one. -/
theorem poll_resolves_only_terminal :
    defaultPollIntervalMs = 2000 ∧
    (∀ (rs : List (Except FetchError BacktestJob)) (j : BacktestJob),
        pollJobStatus rs = some (Except.ok j) → isTerminal j = true) ∧
    (∀ (j : BacktestJob) (rest : List (Except FetchError BacktestJob)),
        isTerminal j = false → pollJobStatus (Except.ok j :: rest) = pollJobStatus rest) ∧
    (∀ (j : BacktestJob) (rest : List (Except FetchError BacktestJob)),
        isTerminal j = true → pollJobStatus (Except.ok j :: rest) = some (Except.ok j)) := by
  refine ⟨rfl, ?_, ?_, ?_⟩
  · intro rs
    induction rs with
    | nil => intro j h; cases h
    | cons r rest ih =>
      intro j h
      match r with
      | Except.error e => simp [pollJobStatus] at h
      | Except.ok job =>
        cases ht : isTerminal job with
        | true =>
          simp [pollJobStatus, ht] at h
          rw [← h]
          exact ht
        | false =>
          simp only [pollJobStatus, ht, Bool.false_eq_true, if_false] at h
          exact ih j h
  · intro j rest hf
    simp [pollJobStatus, hf]
  · intro j rest ht
    simp [pollJobStatus, ht]

/-- Witness for `poll_resolves_only_terminal`: a sequence whose second
response is the first terminal record resolves with it. -/
theorem poll_resolves_only_terminal_witness :
    pollJobStatus [Except.ok (mkJob 7 JobStatus.running none none none),
        Except.ok (mkJob 7 JobStatus.completed none none (some 7))] =
      some (Except.ok (mkJob 7 JobStatus.completed none none (some 7))) ∧
    isTerminal (mkJob 7 JobStatus.completed none none (some 7)) = true :=
  ⟨rfl,
    poll_resolves_only_terminal.2.1
      [Except.ok (mkJob 7 JobStatus.running none none none),
        Except.ok (mkJob 7 JobStatus.completed none none (some 7))]
      (mkJob 7 JobStatus.completed none none (some 7)) rfl⟩

/-! ### View filtering and tracked-set claims -/

/-- A terminal record is not pending/running. -/
theorem isActive_eq_false_of_terminal {j : BacktestJob} (ht : isTerminal j = true) :
    isActive j = false := by
  cases h : j.status
  · simp [isTerminal, h] at ht
  · simp [isTerminal, h] at ht
  · simp [isActive, h]
  · simp [isActive, h]

/-- Claim C3 counterexample: with the active view selected, `loadJobs`
filters the fetched collection before storing it, so the underlying stored
list is not the unfiltered full list. -/
theorem stored_list_filtered_cex :
    (loadJobs false (Except.ok [mkJob 1 JobStatus.completed none none (some 3)])
        initialState).jobs = [] ∧
    [mkJob 1 JobStatus.completed none none (some 3)] ≠ ([] : List BacktestJob) :=
  ⟨rfl, by decide⟩

/-- Claim C3 (amended): the view filter is applied at fetch time, so the
stored list under the active view is the filtered list, not the full list;
nevertheless, for the same fetched collection the tracked set produced by
the polling effect is identical whichever view is selected, because only
pending/running records — present under both views — determine membership. -/
theorem view_tracking_agnostic (s : TrackerState) (allJobs : List BacktestJob)
    (hnd : (allJobs.map BacktestJob.id).Nodup) :
    (ensurePollingEffect (loadJobs false (Except.ok allJobs) s)).polling =
      (ensurePollingEffect (loadJobs true (Except.ok allJobs) s)).polling := by
  have hndf : ((allJobs.filter isActive).map BacktestJob.id).Nodup :=
    hnd.sublist ((List.filter_sublist allJobs).map BacktestJob.id)
  rw [ensurePollingEffect_polling _ (by simpa [loadJobs] using hndf),
    ensurePollingEffect_polling _ (by simpa [loadJobs] using hnd)]
  show activeIds (allJobs.filter isActive) = activeIds allJobs
  simp [activeIds, List.filter_filter]

/-- Witness for `view_tracking_agnostic` on a mixed collection. -/
theorem view_tracking_agnostic_witness :
    (([mkJob 1 JobStatus.running none none none,
        mkJob 2 JobStatus.completed none none (some 3)].map BacktestJob.id).Nodup) ∧
    (ensurePollingEffect (loadJobs false
        (Except.ok [mkJob 1 JobStatus.running none none none,
          mkJob 2 JobStatus.completed none none (some 3)]) initialState)).polling =
      (ensurePollingEffect (loadJobs true
        (Except.ok [mkJob 1 JobStatus.running none none none,
          mkJob 2 JobStatus.completed none none (some 3)]) initialState)).polling :=
  ⟨by decide,
    view_tracking_agnostic initialState
      [mkJob 1 JobStatus.running none none none,
        mkJob 2 JobStatus.completed none none (some 3)] (by decide)⟩

/-- Deleting the ids a finite set rules out from a projection of a list is
a sublist of the full projection. -/
theorem filterMap_skip_sublist (P : Finset Nat) (l : List BacktestJob) :
    (l.filterMap fun j => if j.id ∈ P then none else some j.id).Sublist
      (l.map BacktestJob.id) := by
  induction l with
  | nil => simp
  | cons a t ih =>
    by_cases h : a.id ∈ P
    · simpa [List.filterMap_cons, h] using ih.cons a.id
    · simpa [List.filterMap_cons, h] using ih.cons₂ a.id

/-- Claim C5: the polling effect is idempotent with respect to poll-loop
creation: a pending/running job whose id is untracked gets exactly one
`pollJobStatus` loop started, and once the effect has run, running it again
on the same list starts no further loop for any id. -/
theorem ensurePolling_idempotent (s : TrackerState)
    (hnd : (s.jobs.map BacktestJob.id).Nodup) :
    (∀ j ∈ s.jobs, isActive j = true → j.id ∉ s.polling →
        (pollStartsOf s).count j.id = 1) ∧
    pollStartsOf (ensurePollingEffect s) = [] := by
  constructor
  · intro j hj ha hnp
    have hsub : (pollStartsOf s).Sublist (s.jobs.map BacktestJob.id) := by
      unfold pollStartsOf
      exact (filterMap_skip_sublist s.polling (s.jobs.filter isActive)).trans
        ((List.filter_sublist s.jobs).map BacktestJob.id)
    have hndp : (pollStartsOf s).Nodup := hnd.sublist hsub
    have hmem : j.id ∈ pollStartsOf s := by
      unfold pollStartsOf
      refine List.mem_filterMap.mpr ⟨j, List.mem_filter.mpr ⟨hj, ha⟩, ?_⟩
      simp [hnp]
    exact List.count_eq_one_of_mem hndp hmem
  · unfold pollStartsOf
    refine List.filterMap_eq_nil_iff.mpr fun j hj => ?_
    rw [ensurePollingEffect_jobs] at hj
    have hmem : j.id ∈ (ensurePollingEffect s).polling := by
      rw [ensurePollingEffect_polling s hnd]
      rcases List.mem_filter.mp hj with ⟨hjm, hja⟩
      exact mem_activeIds.mpr ⟨j, hjm, hja, rfl⟩
    simp [hmem]

/-- A state whose tracked set has not yet caught up with a freshly observed
running job. -/
def sampleFresh : TrackerState :=
  { jobs := [mkJob 1 JobStatus.running none none none]
    loading := false
    error := none
    polling := ∅ }

/-- Witness for `ensurePolling_idempotent` on `sampleFresh`. -/
theorem ensurePolling_idempotent_witness :
    ((sampleFresh.jobs.map BacktestJob.id).Nodup ∧
      mkJob 1 JobStatus.running none none none ∈ sampleFresh.jobs ∧
      isActive (mkJob 1 JobStatus.running none none none) = true ∧
      (mkJob 1 JobStatus.running none none none).id ∉ sampleFresh.polling) ∧
    (pollStartsOf sampleFresh).count (mkJob 1 JobStatus.running none none none).id = 1 ∧
    pollStartsOf (ensurePollingEffect sampleFresh) = [] :=
  ⟨⟨by decide, by decide, rfl, by decide⟩,
    (ensurePolling_idempotent sampleFresh (by decide)).1
      (mkJob 1 JobStatus.running none none none) (by decide) rfl (by decide),
    (ensurePolling_idempotent sampleFresh (by decide)).2⟩

/-- Claim C6: after the polling effect runs, an id is tracked exactly when
the most recently observed record for it in the displayed list is
pending/running; consequently a job that a successful refresh reports as
terminal is absent from the tracked set once the effect has re-run. -/
theorem tracked_set_invariant (s : TrackerState) (showCompleted : Bool)
    (fetched : List BacktestJob)
    (hnd : (s.jobs.map BacktestJob.id).Nodup)
    (hndf : (fetched.map BacktestJob.id).Nodup) :
    (∀ x, x ∈ (ensurePollingEffect s).polling ↔
        ∃ j, j ∈ s.jobs ∧ isActive j = true ∧ j.id = x) ∧
    (∀ j, j ∈ fetched → isTerminal j = true →
        j.id ∉ (ensurePollingEffect
          (loadJobs showCompleted (Except.ok fetched) s)).polling) := by
  constructor
  · intro x
    rw [ensurePollingEffect_polling s hnd]
    exact mem_activeIds
  · intro j hj ht
    have hsubnd : ((fetched.filter isActive).map BacktestJob.id).Nodup :=
      hndf.sublist ((List.filter_sublist fetched).map BacktestJob.id)
    have hnd' :
        ((loadJobs showCompleted (Except.ok fetched) s).jobs.map BacktestJob.id).Nodup := by
      cases showCompleted
      · simpa [loadJobs] using hsubnd
      · simpa [loadJobs] using hndf
    rw [ensurePollingEffect_polling _ hnd']
    intro hmem
    rcases mem_activeIds.mp hmem with ⟨j', hj', ha', hid'⟩
    have hj'f : j' ∈ fetched := by
      cases showCompleted
      · exact (List.mem_filter.mp (by simpa [loadJobs] using hj')).1
      · simpa [loadJobs] using hj'
    have hj'j : j' = j := List.inj_on_of_nodup_map hndf hj'f hj hid'
    rw [hj'j, isActive_eq_false_of_terminal ht] at ha'
    exact absurd ha' (by simp)

/-- A state holding one running job whose id is tracked together with an
orphaned tracked id. -/
def sampleTracked : TrackerState :=
  { jobs := [mkJob 1 JobStatus.running none none none]
    loading := false
    error := none
    polling := {1, 9} }

/-- Witness for `tracked_set_invariant`: after the effect, id 1 is tracked
exactly because its record is running, and a refresh reporting it completed
evicts it. -/
theorem tracked_set_invariant_witness :
    ((sampleTracked.jobs.map BacktestJob.id).Nodup ∧
      ([mkJob 1 JobStatus.completed none none (some 3)].map BacktestJob.id).Nodup) ∧
    (1 ∈ (ensurePollingEffect sampleTracked).polling ↔
      ∃ j, j ∈ sampleTracked.jobs ∧ isActive j = true ∧ j.id = 1) ∧
    (mkJob 1 JobStatus.completed none none (some 3)).id ∉
      (ensurePollingEffect (loadJobs true
        (Except.ok [mkJob 1 JobStatus.completed none none (some 3)])
        sampleTracked)).polling :=
  ⟨⟨by decide, by decide⟩,
    (tracked_set_invariant sampleTracked true
        [mkJob 1 JobStatus.completed none none (some 3)] (by decide) (by decide)).1 1,
    (tracked_set_invariant sampleTracked true
        [mkJob 1 JobStatus.completed none none (some 3)] (by decide) (by decide)).2
      (mkJob 1 JobStatus.completed none none (some 3)) (by decide) rfl⟩

/-- Claim C8: one interval tick issues zero collection fetches when the
tracked set is empty, and when it is non-empty the tick performs the
refresh followed by the polling effect, issuing one collection fetch —
assuming the tracked set is in sync with the displayed list, which the
polling effect re-establishes after every list change. -/
theorem periodic_tick_gating (showCompleted : Bool)
    (fetched : Except FetchError (List BacktestJob)) (s : TrackerState)
    (hinv : s.polling = activeIds s.jobs) :
    (s.polling = ∅ → intervalTick showCompleted fetched s = (s, 0)) ∧
    (s.polling ≠ ∅ →
      intervalTick showCompleted fetched s =
        (ensurePollingEffect (loadJobs showCompleted fetched s), 1)) := by
  have hiff : s.polling = ∅ ↔ s.jobs.filter isActive = [] := by
    rw [hinv, activeIds, List.toFinset_eq_empty_iff, List.map_eq_nil_iff]
  constructor
  · intro h
    have hlen : ¬ 0 < (s.jobs.filter isActive).length := by
      rw [hiff.mp h]
      simp
    unfold intervalTick
    rw [if_neg hlen]
  · intro h
    have hne : s.jobs.filter isActive ≠ [] := fun hc => h (hiff.mpr hc)
    have hlen : 0 < (s.jobs.filter isActive).length := List.length_pos.mpr hne
    unfold intervalTick
    rw [if_pos hlen]

/-- A state whose tracked set is in sync with its one running job. -/
def sampleSynced : TrackerState :=
  { jobs := [mkJob 1 JobStatus.running none none none]
    loading := false
    error := none
    polling := {1} }

/-- Witness for `periodic_tick_gating`: an idle tick on the initial state
and a refreshing tick on a synced tracking state. -/
theorem periodic_tick_gating_witness :
    (initialState.polling = activeIds initialState.jobs ∧
      initialState.polling = ∅ ∧
      intervalTick false (Except.ok []) initialState = (initialState, 0)) ∧
    (sampleSynced.polling = activeIds sampleSynced.jobs ∧
      sampleSynced.polling ≠ ∅ ∧
      intervalTick false (Except.ok []) sampleSynced =
        (ensurePollingEffect (loadJobs false (Except.ok []) sampleSynced), 1)) :=
  ⟨⟨by decide, by decide,
      (periodic_tick_gating false (Except.ok []) initialState (by decide)).1 (by decide)⟩,
    ⟨by decide, by decide,
      (periodic_tick_gating false (Except.ok []) sampleSynced (by decide)).2 (by decide)⟩⟩
